import Mathlib

/-!
Verification of the list-comparison core of the Compare-two-lists repository
(two Streamlit scripts, `compare_two_lists.py` and `venn_plot_two_lists.py`).

The embedding models the pure core: parsing raw text into a cleaned ordered
list plus a normalized comparison set, the first-seen-wins normalization
maps, the set algebra on normalized keys, recovery of original-form
representatives, and the two similarity scores.

Modelling conventions:
* Python strings are Lean `String`s; splitting and stripping are
  implemented below over `List Char`, mirroring the CPython semantics of
  `str.splitlines`, `str.split(sep)`, `str.split()` and `str.strip` that
  the scripts rely on.
* `str.casefold` is modelled by per-character ASCII lowercasing; the
  scripts use it only as an opaque normalization function, and no settled
  statement depends on the fold table beyond it being a function.
* Python `set` values become `Finset String`; `dict` values built with
  `setdefault` become association lists with first-insertion-wins updates.
* Python float scores become exact rationals (`ℚ`): the scripts only ever
  divide small set cardinalities, and the specification reasons about the
  mathematical values of those quotients.
* A missing text area value (`None`) is an `Option.none` input; the
  scripts coerce it with `text or ""`.
* Iteration order over a CPython `set` is fixed within a process but not
  specified by the language; `iterSet` below fixes a concrete
  (lexicographic) enumeration for the display-list stage.  No settled
  claim depends on which fixed order is chosen.
-/

/-- Line-break characters recognized by Python `str.splitlines`. -/
def lineBreakChar (c : Char) : Bool :=
  c = '\n' || c = '\r' || c = '\x0b' || c = '\x0c' ||
  c = '\x1c' || c = '\x1d' || c = '\x1e' || c = '\x85' ||
  c = ' ' || c = ' '

/-- Worker for `pySplitlines`: accumulates the current line (reversed);
a final unterminated line is emitted only when non-empty, and a CR-LF pair
counts as a single line break, as in Python. -/
def splitlinesAux : List Char → List Char → List (List Char)
  | [], acc => if acc.isEmpty then [] else [acc.reverse]
  | '\r' :: '\n' :: rest, acc => acc.reverse :: splitlinesAux rest []
  | c :: rest, acc =>
    if lineBreakChar c then
      acc.reverse :: splitlinesAux rest []
    else
      splitlinesAux rest (c :: acc)

/-- Model of Python `str.splitlines()`. -/
def pySplitlines (s : String) : List String :=
  (splitlinesAux s.data []).map String.mk

/-- Whitespace characters for Python `str.split()` / `str.strip()`
(ASCII whitespace plus the common Unicode space characters the scripts
could meet). -/
def isPySpace (c : Char) : Bool :=
  c = ' ' || c = '\t' || c = '\n' || c = '\r' || c = '\x0b' || c = '\x0c' ||
  c = '\x1c' || c = '\x1d' || c = '\x1e' || c = '\x1f' || c = '\x85' ||
  c = '\xa0' || c = ' ' || c = ' ' || c = '　'

/-- Worker for `pySplitWs`: splits on runs of whitespace, discarding empty
pieces, as Python `str.split()` with no argument does. -/
def splitWsAux : List Char → List Char → List (List Char)
  | [], acc => if acc.isEmpty then [] else [acc.reverse]
  | c :: rest, acc =>
    if isPySpace c then
      if acc.isEmpty then splitWsAux rest []
      else acc.reverse :: splitWsAux rest []
    else
      splitWsAux rest (c :: acc)

/-- Model of Python `str.split()` (whitespace mode). -/
def pySplitWs (s : String) : List String :=
  (splitWsAux s.data []).map String.mk

/-- Worker for `pySplit`: splits at each leftmost, non-overlapping
occurrence of the separator, keeping empty pieces, as Python
`str.split(sep)` does for a non-empty `sep`.  The `fuel` argument only
makes the recursion structural; every step consumes at least one input
character, so the caller's `fuel := input length` never runs out. -/
def splitSepAux (sep : List Char) : Nat → List Char → List Char → List (List Char)
  | _, [], acc => [acc.reverse]
  | 0, l, acc => [acc.reverse ++ l]
  | fuel + 1, c :: rest, acc =>
    if sep ≠ [] ∧ sep.isPrefixOf (c :: rest) then
      acc.reverse :: splitSepAux sep fuel ((c :: rest).drop sep.length) []
    else
      splitSepAux sep fuel rest (c :: acc)

/-- Model of Python `str.split(sep)` for a non-empty separator. -/
def pySplit (s : String) (sep : String) : List String :=
  (splitSepAux sep.data s.data.length s.data []).map String.mk

/-- Model of Python `str.strip()`: removes leading and trailing
whitespace. -/
def pyStrip (s : String) : String :=
  String.mk (((s.data.dropWhile isPySpace).reverse.dropWhile isPySpace).reverse)

/-- Model of Python `str.casefold` (per-character ASCII lowercasing; see
the module docstring). -/
def casefold (s : String) : String :=
  String.mk (s.data.map Char.toLower)

/-- The normalized key of one item: the item itself in case-sensitive
mode, its casefold otherwise. -/
def normOf (case_sensitive : Bool) (x : String) : String :=
  if case_sensitive then x else casefold x

namespace CompareTwoLists

/-- `parse_list` from `compare_two_lists.py` (lines 25-59): chooses a
splitting strategy from `delim_mode`, optionally strips each piece,
discards empty pieces, and returns the cleaned ordered list together with
the normalized set. -/
def parse_list (text : Option String) (delim_mode custom_delim : String)
    (case_sensitive strip_items : Bool) : List String × Finset String :=
  let t := text.getD ("")
  let parts :=
    if delim_mode = "newline" then pySplitlines t
    else if delim_mode = "comma" then pySplit t (",")
    else if delim_mode = "semicolon" then pySplit t (";")
    else if delim_mode = "whitespace" then pySplitWs t
    else if delim_mode = "custom" then
      if custom_delim ≠ "" then pySplit t custom_delim else [t]
    else
      let ps := pySplitlines t
      if ps.length ≤ 1 then pySplit t (",") else ps
  let cleaned :=
    (parts.map (fun p => if strip_items then pyStrip p else p)).filter
      (fun item => item ≠ "")
  let norm := if case_sensitive then cleaned else cleaned.map casefold
  (cleaned, norm.toFinset)

/-- One `mapping.setdefault(norm, raw)` step on an association list: only
the first insertion for a key is kept. -/
def setdefault (m : List (String × String)) (k v : String) :
    List (String × String) :=
  if (m.lookup k).isSome then m else m ++ [(k, v)]

/-- `build_norm_map` from `compare_two_lists.py` (lines 62-70): a mapping
from normalized value to the first-seen original value. -/
def build_norm_map (original_list : List String) (case_sensitive : Bool) :
    List (String × String) :=
  let norm_list :=
    if case_sensitive then original_list else original_list.map casefold
  (original_list.zip norm_list).foldl (fun m rn => setdefault m rn.2 rn.1) []

/-- Jaccard similarity as computed at lines 206-207: intersection size
over union size, with an explicit zero default for an empty union. -/
def jaccard (setA_norm setB_norm : Finset String) : ℚ :=
  let inter_norm := setA_norm ∩ setB_norm
  let union_norm := setA_norm ∪ setB_norm
  if union_norm ≠ ∅ then (inter_norm.card : ℚ) / (union_norm.card : ℚ) else 0

/-- Overlap coefficient as computed at lines 208-211: intersection size
over the smaller set size, with an explicit zero default when either set
is empty. -/
def overlap_coeff (setA_norm setB_norm : Finset String) : ℚ :=
  let inter_norm := setA_norm ∩ setB_norm
  if 0 < min setA_norm.card setB_norm.card then
    (inter_norm.card : ℚ) / ((min setA_norm.card setB_norm.card : ℕ) : ℚ)
  else 0

end CompareTwoLists

namespace VennPlot

/-- `parse_list` from `venn_plot_two_lists.py` (lines 13-46); the body is
the same as in `compare_two_lists.py`. -/
def parse_list (text : Option String) (delim_mode custom_delim : String)
    (case_sensitive strip_items : Bool) : List String × Finset String :=
  let t := text.getD ("")
  let parts :=
    if delim_mode = "newline" then pySplitlines t
    else if delim_mode = "comma" then pySplit t (",")
    else if delim_mode = "semicolon" then pySplit t (";")
    else if delim_mode = "whitespace" then pySplitWs t
    else if delim_mode = "custom" then
      if custom_delim ≠ "" then pySplit t custom_delim else [t]
    else
      let ps := pySplitlines t
      if ps.length ≤ 1 then pySplit t (",") else ps
  let cleaned :=
    (parts.map (fun p => if strip_items then pyStrip p else p)).filter
      (fun item => item ≠ "")
  let norm := if case_sensitive then cleaned else cleaned.map casefold
  (cleaned, norm.toFinset)

/-- `normalize_list` from `venn_plot_two_lists.py` (lines 49-50). -/
def normalize_list (lst : List String) (case_sensitive : Bool) :
    List String :=
  if case_sensitive then lst else lst.map casefold

/-- Loop of `recover_items` (lines 53-62): walk the (raw, normalized)
pairs in source order, emitting a raw item the first time its normalized
form is met, provided that form belongs to the requested key set. -/
def recoverAux : List (String × String) → Finset String → Finset String →
    List String
  | [], _, _ => []
  | rn :: rest, s, seen =>
    if rn.2 ∈ s ∧ rn.2 ∉ seen then
      rn.1 :: recoverAux rest s (insert rn.2 seen)
    else
      recoverAux rest s seen

/-- `recover_items` from `venn_plot_two_lists.py` (lines 53-62). -/
def recover_items (original_list : List String)
    (normalized_set : Finset String) (case_sensitive : Bool) : List String :=
  recoverAux (original_list.zip (normalize_list original_list case_sensitive))
    normalized_set ∅

/-- Jaccard similarity as computed at lines 170-171 of
`venn_plot_two_lists.py`. -/
def jaccard (setA_norm setB_norm : Finset String) : ℚ :=
  let union_size := (setA_norm ∪ setB_norm).card
  if 0 < union_size then
    ((setA_norm ∩ setB_norm).card : ℚ) / (union_size : ℚ)
  else 0

end VennPlot

/-- The cleaned ordered item list of one text area
(`listA_raw` / `listB_raw` at lines 163-169 of `compare_two_lists.py`). -/
def cleanedItems (text : Option String) (delim_mode custom_delim : String)
    (case_sensitive strip_items : Bool) : List String :=
  (CompareTwoLists.parse_list text delim_mode custom_delim case_sensitive
    strip_items).1

/-- The normalized comparison set of one text area
(`setA_norm` / `setB_norm` at lines 163-169 of `compare_two_lists.py`). -/
def normSet (text : Option String) (delim_mode custom_delim : String)
    (case_sensitive strip_items : Bool) : Finset String :=
  (CompareTwoLists.parse_list text delim_mode custom_delim case_sensitive
    strip_items).2

/-- `inter_norm` at line 175 of `compare_two_lists.py`. -/
def inter_norm (tA tB : Option String) (delim_mode custom_delim : String)
    (case_sensitive strip_items : Bool) : Finset String :=
  normSet tA delim_mode custom_delim case_sensitive strip_items ∩
    normSet tB delim_mode custom_delim case_sensitive strip_items

/-- `A_only_norm` at line 176 of `compare_two_lists.py`. -/
def A_only_norm (tA tB : Option String) (delim_mode custom_delim : String)
    (case_sensitive strip_items : Bool) : Finset String :=
  normSet tA delim_mode custom_delim case_sensitive strip_items \
    normSet tB delim_mode custom_delim case_sensitive strip_items

/-- `B_only_norm` at line 177 of `compare_two_lists.py`. -/
def B_only_norm (tA tB : Option String) (delim_mode custom_delim : String)
    (case_sensitive strip_items : Bool) : Finset String :=
  normSet tB delim_mode custom_delim case_sensitive strip_items \
    normSet tA delim_mode custom_delim case_sensitive strip_items

/-- A fixed enumeration of a normalized key set, modelling the fixed
per-process iteration order of a CPython `set` (see the module
docstring). -/
def iterSet (s : Finset String) : List String :=
  s.sort (fun a b => a ≤ b)

/-- `list(dict.fromkeys(...))` (lines 183-186 of `compare_two_lists.py`):
deduplication preserving first-occurrence order. -/
def pyDedupAux : List String → Finset String → List String
  | [], _ => []
  | x :: rest, seen =>
    if x ∈ seen then pyDedupAux rest seen
    else x :: pyDedupAux rest (insert x seen)

/-- Deduplicate a display list, keeping first occurrences. -/
def pyDedup (l : List String) : List String :=
  pyDedupAux l ∅

/-- `list.sort()` on strings (lines 188-191 of `compare_two_lists.py`):
lexicographic sorting.  Insertion sort computes the same sorted list. -/
def pySortStrings (l : List String) : List String :=
  l.insertionSort (fun a b => a ≤ b)

/-- The whole processing pipeline of `compare_two_lists.py` (lines
163-211): parse both texts, build the normalization maps, perform the set
algebra, recover representatives for each region, optionally deduplicate
and sort the display lists, and compute both similarity scores. -/
def compare_pipeline (text_a text_b : Option String)
    (delim_mode custom_delim : String)
    (case_sensitive strip_items deduplicate sort_results : Bool) :
    List String × List String × List String × ℚ × ℚ :=
  let pA := CompareTwoLists.parse_list text_a delim_mode custom_delim
    case_sensitive strip_items
  let pB := CompareTwoLists.parse_list text_b delim_mode custom_delim
    case_sensitive strip_items
  let norm_map_A := CompareTwoLists.build_norm_map pA.1 case_sensitive
  let norm_map_B := CompareTwoLists.build_norm_map pB.1 case_sensitive
  let inter_n := pA.2 ∩ pB.2
  let a_only_n := pA.2 \ pB.2
  let b_only_n := pB.2 \ pA.2
  let A_only := (iterSet a_only_n).filterMap (fun n => norm_map_A.lookup n)
  let B_only := (iterSet b_only_n).filterMap (fun n => norm_map_B.lookup n)
  let intersect := (iterSet inter_n).filterMap (fun n => norm_map_A.lookup n)
  let A_only := if deduplicate then pyDedup A_only else A_only
  let B_only := if deduplicate then pyDedup B_only else B_only
  let intersect := if deduplicate then pyDedup intersect else intersect
  let A_only := if sort_results then pySortStrings A_only else A_only
  let B_only := if sort_results then pySortStrings B_only else B_only
  let intersect := if sort_results then pySortStrings intersect else intersect
  (A_only, intersect, B_only, CompareTwoLists.jaccard pA.2 pB.2,
    CompareTwoLists.overlap_coeff pA.2 pB.2)

/-- The scripts' `lst if case_sensitive else [x.casefold() for x in lst]`
idiom computes the pointwise normalized form of a list. -/
theorem norm_list_eq (l : List String) (cs : Bool) :
    (if cs then l else l.map casefold) = l.map (normOf cs) := by
  cases cs
  · rfl
  · exact (List.map_id l).symm

/-- Zipping a list with its normalized form pairs every item with its
normalized key. -/
theorem zip_norm_eq (l : List String) (cs : Bool) :
    l.zip (if cs then l else l.map casefold) =
      l.map (fun x => (x, normOf cs x)) := by
  rw [norm_list_eq]
  have h := List.zip_map' id (normOf cs) l
  simpa using h

/-- A `setdefault` fold never overrides a key that is already present. -/
theorem foldl_setdefault_lookup_some (ps : List (String × String))
    (m : List (String × String)) (k v : String)
    (h : m.lookup k = some v) :
    ((ps.foldl (fun acc rn => CompareTwoLists.setdefault acc rn.2 rn.1)
        m).lookup k) = some v := by
  induction ps generalizing m with
  | nil => exact h
  | cons rn rest ih =>
    simp only [List.foldl_cons]
    apply ih
    unfold CompareTwoLists.setdefault
    split
    · exact h
    · rw [List.lookup_append, h]
      rfl

/-- A `setdefault` fold starting without key `k` ends with the value of
the first inserted pair whose key is `k`. -/
theorem foldl_setdefault_lookup_none (ps : List (String × String))
    (m : List (String × String)) (k : String)
    (h : m.lookup k = none) :
    ((ps.foldl (fun acc rn => CompareTwoLists.setdefault acc rn.2 rn.1)
        m).lookup k) =
      Option.map Prod.fst (ps.find? (fun rn => rn.2 == k)) := by
  induction ps generalizing m with
  | nil => simpa using h
  | cons rn rest ih =>
    simp only [List.foldl_cons]
    by_cases hk : rn.2 = k
    · subst hk
      have hm2 : m.lookup rn.2 = none := h
      have hstep : (CompareTwoLists.setdefault m rn.2 rn.1).lookup rn.2 =
          some rn.1 := by
        unfold CompareTwoLists.setdefault
        rw [if_neg (by simp [hm2])]
        rw [List.lookup_append, hm2]
        simp [List.lookup_cons]
      rw [foldl_setdefault_lookup_some rest _ _ _ hstep]
      rw [List.find?_cons_of_pos _ (by simp)]
      rfl
    · have hstep : (CompareTwoLists.setdefault m rn.2 rn.1).lookup k =
          none := by
        unfold CompareTwoLists.setdefault
        split
        · exact h
        · rw [List.lookup_append, h]
          have hbeq : (k == rn.2) = false :=
            beq_eq_false_iff_ne.mpr (fun hkk => hk hkk.symm)
          simp [List.lookup_cons, hbeq]
      rw [ih _ hstep]
      rw [List.find?_cons_of_neg _ (by simp [hk])]

/-- The normalization map of `compare_two_lists.py` retrieves, for any
normalized key, exactly the first original item whose normalized form is
that key. -/
theorem build_norm_map_lookup (l : List String) (cs : Bool) (k : String) :
    (CompareTwoLists.build_norm_map l cs).lookup k =
      l.find? (fun x => normOf cs x == k) := by
  simp only [CompareTwoLists.build_norm_map]
  rw [zip_norm_eq]
  rw [foldl_setdefault_lookup_none _ _ _ (by rfl)]
  rw [List.find?_map]
  cases hfind : l.find? (fun x => normOf cs x == k) with
  | none =>
    have : l.find? ((fun rn : String × String => rn.2 == k) ∘
        fun x => (x, normOf cs x)) = none := hfind
    rw [this]
    rfl
  | some a =>
    have : l.find? ((fun rn : String × String => rn.2 == k) ∘
        fun x => (x, normOf cs x)) = some a := hfind
    rw [this]
    rfl

/-- Every item emitted by the `recover_items` loop has its normalized key
in the requested set, not yet seen, and is the first item of the source
list carrying that key. -/
theorem recoverAux_mem {f : String → String} {l : List String}
    {s seen : Finset String} {r : String}
    (h : r ∈ VennPlot.recoverAux (l.map (fun x => (x, f x))) s seen) :
    f r ∈ s ∧ f r ∉ seen ∧ l.find? (fun x => f x == f r) = some r := by
  induction l generalizing seen with
  | nil => simp [VennPlot.recoverAux] at h
  | cons x rest ih =>
    simp only [List.map_cons, VennPlot.recoverAux] at h
    by_cases hc : f x ∈ s ∧ f x ∉ seen
    · rw [if_pos hc] at h
      rcases List.mem_cons.mp h with hr | hr
      · subst hr
        exact ⟨hc.1, hc.2, List.find?_cons_of_pos _ (by simp)⟩
      · obtain ⟨h1, h2, h3⟩ := ih hr
        have hne : f r ≠ f x := by
          intro he
          exact (Finset.mem_insert.not.mp h2) (Or.inl he)
        refine ⟨h1, fun hmem => (Finset.mem_insert.not.mp h2)
          (Or.inr hmem), ?_⟩
        rw [List.find?_cons_of_neg _ (by
          simp only [beq_iff_eq]
          exact fun he => hne he.symm)]
        exact h3
    · rw [if_neg hc] at h
      obtain ⟨h1, h2, h3⟩ := ih h
      refine ⟨h1, h2, ?_⟩
      have hne : f x ≠ f r := by
        intro he
        exact hc ⟨he ▸ h1, he ▸ h2⟩
      rw [List.find?_cons_of_neg _ (by simp [hne])]
      exact h3

/-- Conversely, for any key of the requested set that is not yet seen, the
first item of the source list carrying that key is emitted by the
`recover_items` loop. -/
theorem recoverAux_first_mem {f : String → String} {l : List String}
    {s seen : Finset String} {k r : String}
    (hk : k ∈ s) (hseen : k ∉ seen)
    (hfind : l.find? (fun x => f x == k) = some r) :
    r ∈ VennPlot.recoverAux (l.map (fun x => (x, f x))) s seen := by
  induction l generalizing seen with
  | nil => simp at hfind
  | cons x rest ih =>
    simp only [List.map_cons, VennPlot.recoverAux]
    by_cases hp : f x = k
    · rw [List.find?_cons_of_pos _ (by simp [hp])] at hfind
      have hxr : x = r := by injection hfind
      subst hxr
      rw [if_pos ⟨hp ▸ hk, hp ▸ hseen⟩]
      exact List.mem_cons_self x _
    · rw [List.find?_cons_of_neg _ (by simp [hp])] at hfind
      by_cases hc : f x ∈ s ∧ f x ∉ seen
      · rw [if_pos hc]
        refine List.mem_cons_of_mem x ?_
        have hseen2 : k ∉ insert (f x) seen := by
          intro hmem
          rcases Finset.mem_insert.mp hmem with he | hm
          · exact hp he.symm
          · exact hseen hm
        exact ih hseen2 hfind
      · rw [if_neg hc]
        exact ih hseen hfind

/-- `recover_items` characterization: for a key `k` of the requested set,
the item placed for `k` is exactly the first item of the source list whose
normalized form is `k`. -/
theorem recover_items_first_iff (l : List String) (s : Finset String)
    (cs : Bool) (k r : String) (hk : k ∈ s) :
    l.find? (fun x => normOf cs x == k) = some r ↔
      (r ∈ VennPlot.recover_items l s cs ∧ normOf cs r = k) := by
  unfold VennPlot.recover_items VennPlot.normalize_list
  rw [zip_norm_eq]
  constructor
  · intro hfind
    have heq : normOf cs r = k := by
      have hp := List.find?_some hfind
      simpa [beq_iff_eq] using hp
    exact ⟨recoverAux_first_mem hk (by simp) hfind, heq⟩
  · rintro ⟨hmem, heq⟩
    obtain ⟨h1, h2, h3⟩ := recoverAux_mem hmem
    rw [heq] at h3
    exact h3

/-- The normalized set returned by `parse_list` is the set of normalized
keys of the cleaned item list. -/
theorem normSet_eq (text : Option String) (delim_mode custom_delim : String)
    (cs si : Bool) :
    normSet text delim_mode custom_delim cs si =
      ((cleanedItems text delim_mode custom_delim cs si).map
        (normOf cs)).toFinset := by
  unfold normSet cleanedItems CompareTwoLists.parse_list
  dsimp only
  rw [norm_list_eq]

/-- A key belongs to the normalized set exactly when some cleaned item
normalizes to it, i.e. when the first-match search succeeds. -/
theorem mem_normSet_iff (text : Option String)
    (delim_mode custom_delim : String) (cs si : Bool) (k : String) :
    k ∈ normSet text delim_mode custom_delim cs si ↔
      ((cleanedItems text delim_mode custom_delim cs si).find?
        (fun x => normOf cs x == k)).isSome := by
  rw [normSet_eq]
  rw [List.mem_toFinset, List.find?_isSome]
  constructor
  · intro hmem
    obtain ⟨x, hx, hfx⟩ := List.mem_map.mp hmem
    exact ⟨x, hx, by simp [hfx]⟩
  · rintro ⟨x, hx, hfx⟩
    exact List.mem_map.mpr ⟨x, hx, by simpa [beq_iff_eq] using hfx⟩

/-- C10: the two `parse_list` implementations in `compare_two_lists.py`
and `venn_plot_two_lists.py` are extensionally equal: for every text,
delimiter mode, custom delimiter, case-sensitivity and trimming flag, both
return the same (cleaned ordered list, normalized set) pair. -/
theorem parse_list_implementations_agree (text : Option String)
    (delim_mode custom_delim : String) (case_sensitive strip_items : Bool) :
    CompareTwoLists.parse_list text delim_mode custom_delim case_sensitive
        strip_items =
      VennPlot.parse_list text delim_mode custom_delim case_sensitive
        strip_items := rfl

/-- C7: for every configuration, parsing a missing (`None`) or empty
input text returns an empty ordered list and an empty normalized set
rather than raising an error. -/
theorem parse_list_empty_or_missing_text (delim_mode custom_delim : String)
    (case_sensitive strip_items : Bool) :
    CompareTwoLists.parse_list none delim_mode custom_delim case_sensitive
        strip_items = ([], ∅) ∧
    CompareTwoLists.parse_list (some ("")) delim_mode custom_delim
        case_sensitive strip_items = ([], ∅) := by
  have base : CompareTwoLists.parse_list (some ("")) delim_mode custom_delim
      case_sensitive strip_items = ([], ∅) := by
    by_cases h1 : delim_mode = "newline"
    · subst h1; cases case_sensitive <;> cases strip_items <;> rfl
    · by_cases h2 : delim_mode = "comma"
      · subst h2; cases case_sensitive <;> cases strip_items <;> rfl
      · by_cases h3 : delim_mode = "semicolon"
        · subst h3; cases case_sensitive <;> cases strip_items <;> rfl
        · by_cases h4 : delim_mode = "whitespace"
          · subst h4; cases case_sensitive <;> cases strip_items <;> rfl
          · by_cases h5 : delim_mode = "custom"
            · subst h5
              by_cases hcd : custom_delim = ""
              · subst hcd
                cases case_sensitive <;> cases strip_items <;> rfl
              · simp only [CompareTwoLists.parse_list]
                rw [if_neg (by decide), if_neg (by decide),
                  if_neg (by decide), if_neg (by decide), if_pos trivial,
                  if_pos hcd]
                cases case_sensitive <;> cases strip_items <;> rfl
            · simp only [CompareTwoLists.parse_list]
              rw [if_neg h1, if_neg h2, if_neg h3, if_neg h4, if_neg h5]
              cases case_sensitive <;> cases strip_items <;> rfl
  exact ⟨base, base⟩

/-- C2: parsing with `delimiterMode=auto` first splits on line breaks and,
when that yields zero or one piece, re-splits the text on commas instead;
in particular a single-line comma-separated input is split on commas,
while a multi-line input is split only on line breaks even if its lines
contain commas. -/
theorem auto_mode_newline_then_comma (text : Option String)
    (custom_delim : String) (case_sensitive strip_items : Bool) :
    (CompareTwoLists.parse_list text ("auto") custom_delim case_sensitive
        strip_items =
      if (pySplitlines (text.getD (""))).length ≤ 1 then
        CompareTwoLists.parse_list text ("comma") custom_delim
          case_sensitive strip_items
      else
        CompareTwoLists.parse_list text ("newline") custom_delim
          case_sensitive strip_items) ∧
    (CompareTwoLists.parse_list (some ("a, b, c")) ("auto") "" false
        true).1 = ["a", "b", "c"] ∧
    (CompareTwoLists.parse_list (some ("a\nb,c")) ("auto") "" false
        true).1 = ["a", "b,c"] := by
  refine ⟨?_, by decide, by decide⟩
  by_cases h : (pySplitlines (text.getD (""))).length ≤ 1
  · rw [if_pos h]
    simp [CompareTwoLists.parse_list, h]
  · rw [if_neg h]
    simp [CompareTwoLists.parse_list, h]

/-- C8: parsing with `delimiterMode=custom` and an empty custom delimiter
treats the entire text as one single item: after the optional trim, a
non-empty text yields a one-element list (and its normalized singleton
set), an empty one yields the empty result; no failure occurs. -/
theorem custom_mode_empty_delimiter_single_item (text : Option String)
    (case_sensitive strip_items : Bool) :
    CompareTwoLists.parse_list text ("custom") "" case_sensitive
        strip_items =
      (let t := text.getD ("")
       let item := if strip_items then pyStrip t else t
       if item = "" then (([] : List String), (∅ : Finset String))
       else ([item], {normOf case_sensitive item})) := by
  simp only [CompareTwoLists.parse_list]
  rw [if_neg (by decide), if_neg (by decide), if_neg (by decide),
    if_neg (by decide), if_pos trivial, if_neg (by simp)]
  by_cases h : (if strip_items then pyStrip (text.getD ("")) else
      text.getD ("")) = ""
  · simp only [List.map_cons, List.map_nil, h]
    cases case_sensitive <;> simp
  · simp only [List.map_cons, List.map_nil]
    rw [if_neg h]
    rw [List.filter_cons_of_pos (by simpa using h), List.filter_nil]
    cases case_sensitive <;> simp [normOf]

/-- C5: the key-set cardinalities computed before any display-list
deduplication partition each normalized set: `|A_only| + |intersect| =
|normalizedSet(A)|`, and symmetrically for B. -/
theorem region_cardinalities_partition (tA tB : Option String)
    (delim_mode custom_delim : String) (case_sensitive strip_items : Bool) :
    (A_only_norm tA tB delim_mode custom_delim case_sensitive
          strip_items).card +
        (inter_norm tA tB delim_mode custom_delim case_sensitive
          strip_items).card =
      (normSet tA delim_mode custom_delim case_sensitive strip_items).card ∧
    (B_only_norm tA tB delim_mode custom_delim case_sensitive
          strip_items).card +
        (inter_norm tA tB delim_mode custom_delim case_sensitive
          strip_items).card =
      (normSet tB delim_mode custom_delim case_sensitive strip_items).card := by
  constructor
  · exact Finset.card_sdiff_add_card_inter _ _
  · have h := Finset.card_sdiff_add_card_inter
      (normSet tB delim_mode custom_delim case_sensitive strip_items)
      (normSet tA delim_mode custom_delim case_sensitive strip_items)
    rw [Finset.inter_comm] at h
    exact h

/-- C6: exchanging which text is list A and which is list B swaps the
A-only and B-only results (both as key sets and as display lists), while
the intersection key set and the Jaccard score are unchanged. -/
theorem swapping_lists_swaps_only_regions (tA tB : Option String)
    (delim_mode custom_delim : String)
    (case_sensitive strip_items deduplicate sort_results : Bool) :
    A_only_norm tB tA delim_mode custom_delim case_sensitive strip_items =
      B_only_norm tA tB delim_mode custom_delim case_sensitive strip_items ∧
    B_only_norm tB tA delim_mode custom_delim case_sensitive strip_items =
      A_only_norm tA tB delim_mode custom_delim case_sensitive strip_items ∧
    inter_norm tB tA delim_mode custom_delim case_sensitive strip_items =
      inter_norm tA tB delim_mode custom_delim case_sensitive strip_items ∧
    CompareTwoLists.jaccard
        (normSet tB delim_mode custom_delim case_sensitive strip_items)
        (normSet tA delim_mode custom_delim case_sensitive strip_items) =
      CompareTwoLists.jaccard
        (normSet tA delim_mode custom_delim case_sensitive strip_items)
        (normSet tB delim_mode custom_delim case_sensitive strip_items) ∧
    (compare_pipeline tB tA delim_mode custom_delim case_sensitive
        strip_items deduplicate sort_results).1 =
      (compare_pipeline tA tB delim_mode custom_delim case_sensitive
        strip_items deduplicate sort_results).2.2.1 ∧
    (compare_pipeline tB tA delim_mode custom_delim case_sensitive
        strip_items deduplicate sort_results).2.2.1 =
      (compare_pipeline tA tB delim_mode custom_delim case_sensitive
        strip_items deduplicate sort_results).1 := by
  refine ⟨rfl, rfl, Finset.inter_comm _ _, ?_, rfl, rfl⟩
  simp only [CompareTwoLists.jaccard]
  rw [Finset.inter_comm, Finset.union_comm]

/-- The Jaccard branch condition is equivalent to both sets being
non-empty together: an empty union means both inputs are empty. -/
theorem jaccard_eq_ite (sa sb : Finset String) :
    CompareTwoLists.jaccard sa sb =
      if sa = ∅ ∧ sb = ∅ then 0
      else ((sa ∩ sb).card : ℚ) / ((sa ∪ sb).card : ℚ) := by
  simp only [CompareTwoLists.jaccard]
  by_cases h : sa ∪ sb = ∅
  · rw [if_neg (by simpa using h), if_pos (Finset.union_eq_empty.mp h)]
  · rw [if_pos h, if_neg (fun hb => h (Finset.union_eq_empty.mpr hb))]

/-- Whenever the Jaccard division branch is taken, its denominator is a
non-zero rational. -/
theorem jaccard_denominator_nonzero (sa sb : Finset String) :
    (sa = ∅ ∧ sb = ∅) ∨ ((sa ∪ sb).card : ℚ) ≠ 0 := by
  by_cases h : sa = ∅ ∧ sb = ∅
  · exact Or.inl h
  · refine Or.inr ?_
    have hne : sa ∪ sb ≠ ∅ := fun hu => h (Finset.union_eq_empty.mp hu)
    have hcard : (sa ∪ sb).card ≠ 0 := fun hc => hne (Finset.card_eq_zero.mp hc)
    exact_mod_cast hcard

/-- The overlap-coefficient branch condition is equivalent to neither set
being empty. -/
theorem overlap_coeff_eq_ite (sa sb : Finset String) :
    CompareTwoLists.overlap_coeff sa sb =
      if sa = ∅ ∨ sb = ∅ then 0
      else ((sa ∩ sb).card : ℚ) / ((min sa.card sb.card : ℕ) : ℚ) := by
  simp only [CompareTwoLists.overlap_coeff]
  by_cases h : sa = ∅ ∨ sb = ∅
  · have hmin : ¬ 0 < min sa.card sb.card := by
      rcases h with h | h <;> subst h <;> simp
    rw [if_neg hmin, if_pos h]
  · have hpair := not_or.mp h
    have hmin : 0 < min sa.card sb.card := by
      rw [lt_min_iff]
      exact ⟨Finset.card_pos.mpr (Finset.nonempty_iff_ne_empty.mpr hpair.1),
        Finset.card_pos.mpr (Finset.nonempty_iff_ne_empty.mpr hpair.2)⟩
    rw [if_pos hmin, if_neg h]

/-- Whenever the overlap-coefficient division branch is taken, its
denominator is a non-zero rational. -/
theorem overlap_coeff_denominator_nonzero (sa sb : Finset String) :
    (sa = ∅ ∨ sb = ∅) ∨ ((min sa.card sb.card : ℕ) : ℚ) ≠ 0 := by
  by_cases h : sa = ∅ ∨ sb = ∅
  · exact Or.inl h
  · refine Or.inr ?_
    have hpair := not_or.mp h
    have hmin : 0 < min sa.card sb.card := by
      rw [lt_min_iff]
      exact ⟨Finset.card_pos.mpr (Finset.nonempty_iff_ne_empty.mpr hpair.1),
        Finset.card_pos.mpr (Finset.nonempty_iff_ne_empty.mpr hpair.2)⟩
    have : min sa.card sb.card ≠ 0 := Nat.pos_iff_ne_zero.mp hmin
    exact_mod_cast this

/-- Both scripts compute the same Jaccard value: the `union_size > 0`
guard of `venn_plot_two_lists.py` and the `if union_norm` truthiness guard
of `compare_two_lists.py` select the same branch. -/
theorem venn_jaccard_eq_compare (sa sb : Finset String) :
    VennPlot.jaccard sa sb = CompareTwoLists.jaccard sa sb := by
  simp only [VennPlot.jaccard, CompareTwoLists.jaccard]
  by_cases h : sa ∪ sb = ∅
  · rw [if_neg (by simp [h]), if_neg (by simpa using h)]
  · have hpos : 0 < (sa ∪ sb).card :=
      Finset.card_pos.mpr (Finset.nonempty_iff_ne_empty.mpr h)
    rw [if_pos hpos, if_pos h]

/-- C3: for every pair of parsed lists, the Jaccard score equals
`|intersectionKeys| / |unionKeys|` and is 0 when both normalized sets are
empty, and the overlap coefficient equals
`|intersectionKeys| / min(|normSetA|, |normSetB|)` and is 0 when either
normalized set is empty; in every division branch the denominator is
non-zero, so neither computation divides by zero, and both scripts agree
on the Jaccard value. -/
theorem similarity_scores_zero_defaults (tA tB : Option String)
    (delim_mode custom_delim : String) (case_sensitive strip_items : Bool)
    (sa sb : Finset String)
    (_ha : sa = normSet tA delim_mode custom_delim case_sensitive strip_items)
    (_hb : sb = normSet tB delim_mode custom_delim case_sensitive strip_items) :
    (CompareTwoLists.jaccard sa sb =
        if sa = ∅ ∧ sb = ∅ then 0
        else ((sa ∩ sb).card : ℚ) / ((sa ∪ sb).card : ℚ)) ∧
    ((sa = ∅ ∧ sb = ∅) ∨ ((sa ∪ sb).card : ℚ) ≠ 0) ∧
    (CompareTwoLists.overlap_coeff sa sb =
        if sa = ∅ ∨ sb = ∅ then 0
        else ((sa ∩ sb).card : ℚ) / ((min sa.card sb.card : ℕ) : ℚ)) ∧
    ((sa = ∅ ∨ sb = ∅) ∨ ((min sa.card sb.card : ℕ) : ℚ) ≠ 0) ∧
    VennPlot.jaccard sa sb = CompareTwoLists.jaccard sa sb :=
  ⟨jaccard_eq_ite _ _, jaccard_denominator_nonzero _ _,
    overlap_coeff_eq_ite _ _, overlap_coeff_denominator_nonzero _ _,
    venn_jaccard_eq_compare _ _⟩

/-- Witness for C3: the concrete spec scenario `A = ""`, `B = "x"` reaches
the either-empty zero default of the overlap coefficient while the
Jaccard denominator is the non-empty union. -/
theorem similarity_scores_zero_defaults_witness :
    CompareTwoLists.jaccard
        (normSet none ("auto") "" false true)
        (normSet (some ("x")) ("auto") "" false true) =
      (if normSet none ("auto") "" false true = ∅ ∧
          normSet (some ("x")) ("auto") "" false true = ∅ then 0
        else ((normSet none ("auto") "" false true ∩
            normSet (some ("x")) ("auto") "" false true).card : ℚ) /
          ((normSet none ("auto") "" false true ∪
            normSet (some ("x")) ("auto") "" false true).card : ℚ)) :=
  (similarity_scores_zero_defaults none (some ("x")) ("auto") "" false true
    (normSet none ("auto") "" false true)
    (normSet (some ("x")) ("auto") "" false true) rfl rfl).1

/-- The Jaccard score of any two finite string sets lies in `[0, 1]` and
attains `1` exactly when the sets are equal and non-empty. -/
theorem jaccard_bounds_iff (sa sb : Finset String) :
    0 ≤ CompareTwoLists.jaccard sa sb ∧ CompareTwoLists.jaccard sa sb ≤ 1 ∧
    (CompareTwoLists.jaccard sa sb = 1 ↔ (sa = sb ∧ sa ≠ ∅)) := by
  by_cases h : sa ∪ sb = ∅
  · have h0 : CompareTwoLists.jaccard sa sb = 0 := by
      simp only [CompareTwoLists.jaccard]
      rw [if_neg (by simpa using h)]
    rw [h0]
    refine ⟨le_refl 0, zero_le_one, ?_, ?_⟩
    · intro h1
      exact absurd h1 (by norm_num)
    · rintro ⟨heq, hne⟩
      exact absurd (Finset.union_eq_empty.mp h).1 hne
  · have hj : CompareTwoLists.jaccard sa sb =
        ((sa ∩ sb).card : ℚ) / ((sa ∪ sb).card : ℚ) := by
      simp only [CompareTwoLists.jaccard]
      rw [if_pos h]
    have hupos : 0 < (sa ∪ sb).card :=
      Finset.card_pos.mpr (Finset.nonempty_iff_ne_empty.mpr h)
    have hqpos : (0 : ℚ) < ((sa ∪ sb).card : ℚ) := by exact_mod_cast hupos
    have hsub : sa ∩ sb ⊆ sa ∪ sb :=
      Finset.inter_subset_left.trans Finset.subset_union_left
    have hle : (sa ∩ sb).card ≤ (sa ∪ sb).card := Finset.card_le_card hsub
    rw [hj]
    refine ⟨div_nonneg (Nat.cast_nonneg _) (le_of_lt hqpos), ?_, ?_⟩
    · rw [div_le_one hqpos]
      exact_mod_cast hle
    · rw [div_eq_one_iff_eq (ne_of_gt hqpos)]
      constructor
      · intro hcards
        have hcn : (sa ∩ sb).card = (sa ∪ sb).card := by exact_mod_cast hcards
        have hinter : sa ∩ sb = sa ∪ sb :=
          Finset.eq_of_subset_of_card_le hsub (le_of_eq hcn.symm)
        have hsa_sub : sa ⊆ sb := by
          intro x hx
          have hxu : x ∈ sa ∪ sb := Finset.subset_union_left hx
          rw [← hinter] at hxu
          exact (Finset.mem_inter.mp hxu).2
        have hsb_sub : sb ⊆ sa := by
          intro x hx
          have hxu : x ∈ sa ∪ sb := Finset.subset_union_right hx
          rw [← hinter] at hxu
          exact (Finset.mem_inter.mp hxu).1
        have heq : sa = sb := Finset.Subset.antisymm hsa_sub hsb_sub
        refine ⟨heq, fun hempty => h ?_⟩
        rw [← heq, hempty]
        simp
      · rintro ⟨heq, hne2⟩
        subst heq
        rw [Finset.inter_self, Finset.union_self]

/-- C4: the Jaccard score always satisfies `0 ≤ jaccard ≤ 1`, and it
equals 1 exactly when the two normalized sets are equal and non-empty. -/
theorem jaccard_bounds_and_one_iff (tA tB : Option String)
    (delim_mode custom_delim : String) (case_sensitive strip_items : Bool) :
    0 ≤ CompareTwoLists.jaccard
        (normSet tA delim_mode custom_delim case_sensitive strip_items)
        (normSet tB delim_mode custom_delim case_sensitive strip_items) ∧
    CompareTwoLists.jaccard
        (normSet tA delim_mode custom_delim case_sensitive strip_items)
        (normSet tB delim_mode custom_delim case_sensitive strip_items) ≤ 1 ∧
    (CompareTwoLists.jaccard
        (normSet tA delim_mode custom_delim case_sensitive strip_items)
        (normSet tB delim_mode custom_delim case_sensitive strip_items) = 1 ↔
      (normSet tA delim_mode custom_delim case_sensitive strip_items =
          normSet tB delim_mode custom_delim case_sensitive strip_items ∧
        normSet tA delim_mode custom_delim case_sensitive strip_items ≠ ∅)) :=
  jaccard_bounds_iff _ _

/-- C1: for every pair of input texts and every configuration, the
representative string placed in a result region (A-only, Intersection,
B-only) for a normalized key is the first original item, in source order
of the originating list, whose folded form equals that key — in
`compare_two_lists.py` via the first-seen-wins normalization map, and in
`venn_plot_two_lists.py` via the `recover_items` walk; the Intersection
representatives are drawn from list A.  Being phrased through the
first-match search, the representative is deterministic and independent
of how often the item repeats in the source text. -/
theorem representatives_are_first_matching_items (tA tB : Option String)
    (delim_mode custom_delim : String) (case_sensitive strip_items : Bool)
    (kA kI kB : String)
    (hA : kA ∈ A_only_norm tA tB delim_mode custom_delim case_sensitive
      strip_items)
    (hI : kI ∈ inter_norm tA tB delim_mode custom_delim case_sensitive
      strip_items)
    (hB : kB ∈ B_only_norm tA tB delim_mode custom_delim case_sensitive
      strip_items) :
    let clA := cleanedItems tA delim_mode custom_delim case_sensitive
      strip_items
    let clB := cleanedItems tB delim_mode custom_delim case_sensitive
      strip_items
    ((CompareTwoLists.build_norm_map clA case_sensitive).lookup kA =
        clA.find? (fun x => normOf case_sensitive x == kA)) ∧
    ((CompareTwoLists.build_norm_map clA case_sensitive).lookup kI =
        clA.find? (fun x => normOf case_sensitive x == kI)) ∧
    ((CompareTwoLists.build_norm_map clB case_sensitive).lookup kB =
        clB.find? (fun x => normOf case_sensitive x == kB)) ∧
    (∀ r, clA.find? (fun x => normOf case_sensitive x == kA) = some r ↔
        (r ∈ VennPlot.recover_items clA
            (A_only_norm tA tB delim_mode custom_delim case_sensitive
              strip_items) case_sensitive ∧
          normOf case_sensitive r = kA)) ∧
    (∀ r, clA.find? (fun x => normOf case_sensitive x == kI) = some r ↔
        (r ∈ VennPlot.recover_items clA
            (inter_norm tA tB delim_mode custom_delim case_sensitive
              strip_items) case_sensitive ∧
          normOf case_sensitive r = kI)) ∧
    (∀ r, clB.find? (fun x => normOf case_sensitive x == kB) = some r ↔
        (r ∈ VennPlot.recover_items clB
            (B_only_norm tA tB delim_mode custom_delim case_sensitive
              strip_items) case_sensitive ∧
          normOf case_sensitive r = kB)) :=
  ⟨build_norm_map_lookup _ _ _, build_norm_map_lookup _ _ _,
    build_norm_map_lookup _ _ _,
    fun r => recover_items_first_iff _ _ _ _ r hA,
    fun r => recover_items_first_iff _ _ _ _ r hI,
    fun r => recover_items_first_iff _ _ _ _ r hB⟩

/-- Witness for C1: a concrete comparison (`A = "Apple\napple\nx"`,
`B = "APPLE\ny"`, newline mode, case-insensitive, trimming) in which each
region is non-empty, together with one consequence: the Intersection
representative for the key `"apple"` is the first matching original item
of list A. -/
theorem representatives_are_first_matching_items_witness :
    ("x" ∈ A_only_norm (some ("Apple\napple\nx")) (some ("APPLE\ny"))
        ("newline") "" false true) ∧
    ("apple" ∈ inter_norm (some ("Apple\napple\nx")) (some ("APPLE\ny"))
        ("newline") "" false true) ∧
    ("y" ∈ B_only_norm (some ("Apple\napple\nx")) (some ("APPLE\ny"))
        ("newline") "" false true) ∧
    ((CompareTwoLists.build_norm_map
        (cleanedItems (some ("Apple\napple\nx")) ("newline") "" false true)
        false).lookup ("apple") =
      (cleanedItems (some ("Apple\napple\nx")) ("newline") "" false
        true).find? (fun x => normOf false x == "apple")) :=
  ⟨by decide, by decide, by decide,
    (representatives_are_first_matching_items (some ("Apple\napple\nx"))
      (some ("APPLE\ny")) ("newline") "" false true ("x") ("apple") ("y")
      (by decide) (by decide) (by decide)).2.1⟩

/-- C9: the whole parse-compare-score pipeline is a pure, deterministic
function of (text A, text B, configuration): two runs on identical inputs
yield identical results, including the ordering of the three display
lists and both scores. -/
theorem pipeline_deterministic (tA tB tA2 tB2 : Option String)
    (delim_mode delim_mode2 custom_delim custom_delim2 : String)
    (case_sensitive case_sensitive2 strip_items strip_items2 deduplicate
      deduplicate2 sort_results sort_results2 : Bool)
    (h1 : tA = tA2) (h2 : tB = tB2) (h3 : delim_mode = delim_mode2)
    (h4 : custom_delim = custom_delim2)
    (h5 : case_sensitive = case_sensitive2)
    (h6 : strip_items = strip_items2) (h7 : deduplicate = deduplicate2)
    (h8 : sort_results = sort_results2) :
    compare_pipeline tA tB delim_mode custom_delim case_sensitive
        strip_items deduplicate sort_results =
      compare_pipeline tA2 tB2 delim_mode2 custom_delim2 case_sensitive2
        strip_items2 deduplicate2 sort_results2 := by
  subst h1 h2 h3 h4 h5 h6 h7 h8
  rfl

/-- Witness for C9: rerunning the pipeline on one concrete input pair
gives the same result. -/
theorem pipeline_deterministic_witness :
    compare_pipeline (some ("a,b")) (some ("b,c")) ("auto") "" false true
        true false =
      compare_pipeline (some ("a,b")) (some ("b,c")) ("auto") "" false true
        true false :=
  pipeline_deterministic (some ("a,b")) (some ("b,c")) (some ("a,b"))
    (some ("b,c")) ("auto") ("auto") "" "" false false true true true true
    false false rfl rfl rfl rfl rfl rfl rfl rfl
